import Mathlib

/-!
Verification of the CEASIOMpy workflow-utility layer
(`ceasiompy/utils/ceasiompyutils.py`).

The Python functions are shallowly embedded as pure Lean functions.
Process-global state (current working directory, filesystem entries,
the CPACS document) is passed explicitly; operations that can raise in
Python return `Except`; the list of `os.chdir` calls performed by
`change_working_dir` is recorded explicitly so that statements about
restoration behaviour can be made.
-/

/-! ## String helpers (model of Python `str` operations and `pathlib`) -/

/-- Model of Python substring containment (`pat in s`) on character lists. -/
def containsSub (pat : List Char) : List Char → Bool
  | [] => pat.isEmpty
  | c :: cs => pat.isPrefixOf (c :: cs) || containsSub pat cs

/-- Model of Python `pat in s` for strings. -/
def strContains (s pat : String) : Bool :=
  containsSub pat.toList s.toList

/-- The marker used by `get_part_type` to cut mirrored part uids. -/
def mirroredMark : List Char := "_mirrored".toList

/-- First field of Python `s.split(pat)`: the prefix of `l` before the first
occurrence of `pat` (all of `l` when `pat` does not occur). -/
def splitFirst (pat : List Char) : List Char → List Char
  | [] => []
  | c :: cs => if pat.isPrefixOf (c :: cs) then [] else c :: splitFirst pat cs

/-- Model of `part_uid.split("_mirrored")[0]` from `get_part_type`. -/
def truncate_mirrored (uid : String) : String :=
  String.mk (splitFirst mirroredMark uid.toList)

/-- Index of the last occurrence of `c` in `l` (Python `str.rfind`). -/
def rfindIdx (c : Char) (l : List Char) : Option Nat :=
  match l.reverse.findIdx? (fun x => x == c) with
  | none => none
  | some j => some (l.length - 1 - j)

/-- Model of CPython `pathlib.PurePath.suffix` on a final path component. -/
def pathSuffix (name : String) : String :=
  let l := name.toList
  match rfindIdx ('.') l with
  | none => ""
  | some i => if 0 < i ∧ i < l.length - 1 then String.mk (l.drop i) else ""

/-- Model of CPython `pathlib.PurePath.stem` on a final path component. -/
def pathStem (name : String) : String :=
  let l := name.toList
  match rfindIdx ('.') l with
  | none => name
  | some i => if 0 < i ∧ i < l.length - 1 then String.mk (l.take i) else name

/-! ## Resource Advisor: `get_reasonable_nb_cpu` -/

/-- Model of `get_reasonable_nb_cpu`; `cpu_count` is the result of
`os.cpu_count()` (`none` when the host count cannot be determined).
`math.ceil(cpu_count / 4)` is the ceiling of the exact rational quotient. -/
def get_reasonable_nb_cpu (cpu_count : Option Nat) : Nat :=
  match cpu_count with
  | none => 1
  | some n => ⌈(n : ℚ) / 4⌉₊

/-! ## `get_part_type` -/

/-- The if/elif chain of `get_part_type` applied to the resolved xpath. -/
def classify_part_xpath (part_xpath : String) : Option String :=
  if strContains part_xpath "wings/wing" then some "wing"
  else if strContains part_xpath "fuselages/fuselage" then some "fuselage"
  else if strContains part_xpath "enginePylons/enginePylon" then some "pylon"
  else if strContains part_xpath "engine/nacelle/fanCowl" then some "fanCowl"
  else if strContains part_xpath "engine/nacelle/centerCowl" then some "centerCowl"
  else if strContains part_xpath "engine/nacelle/coreCowl" then some "coreCowl"
  else if strContains part_xpath "vehicles/engines/engine" then some "engine"
  else if strContains part_xpath "vehicles/rotorcraft/model/rotors/rotor" then some "rotor"
  else none

/-- Model of `get_part_type(tixi, part_uid, print)`. `uIDGetXPath` models
`tixi.uIDGetXPath`. Returns the classification together with a flag telling
whether the fall-through warning was emitted. -/
def get_part_type (uIDGetXPath : String → String) (part_uid : String) (pr : Bool) :
    Option String × Bool :=
  let part_uid := truncate_mirrored part_uid
  let part_xpath := uIDGetXPath part_uid
  match classify_part_xpath part_xpath with
  | some t => (some t, false)
  | none => (none, pr)

/-- Modelled from the spec: the fixed ordered list of address patterns and
their part categories, in the order the sentence lists the checks. -/
def part_patterns : List (String × String) :=
  [("wings/wing", "wing"),
   ("fuselages/fuselage", "fuselage"),
   ("enginePylons/enginePylon", "pylon"),
   ("engine/nacelle/fanCowl", "fanCowl"),
   ("engine/nacelle/centerCowl", "centerCowl"),
   ("engine/nacelle/coreCowl", "coreCowl"),
   ("vehicles/engines/engine", "engine"),
   ("vehicles/rotorcraft/model/rotors/rotor", "rotor")]

/-- Modelled from the spec: classification as first match against the fixed
ordered pattern list. -/
def classify_by_patterns (part_xpath : String) : Option String :=
  (part_patterns.find? (fun q => strContains part_xpath q.1)).map Prod.snd

/-! ## Working-Directory Scope: `change_working_dir` -/

/-- Process-level state seen by `os.getcwd` / `os.chdir`: the current working
directory and the set of directories that exist (a `chdir` succeeds exactly
when its target exists). -/
structure OSState where
  cwd : String
  dirs : List String
deriving DecidableEq, Repr

/-- Errors escaping the `change_working_dir` scope: an `OSError`
(`EnvironmentError`) raised by `os.chdir`, or an error raised by the enclosed
operation. -/
inductive CwdError (E : Type) where
  | chdirFail (dir : String)
  | opErr (e : E)
deriving DecidableEq, Repr

/-- Result of running a scope under `change_working_dir`: the final process
state, the outcome (normal return or propagated error), and every `os.chdir`
call attempted by the context manager, in order. -/
structure CwdResult (E : Type) where
  state : OSState
  outcome : Except (CwdError E) Unit
  chdirCalls : List String
deriving Repr

/-- Model of the `change_working_dir` context manager wrapped around an
enclosed operation `op`.  Mirrors the Python control flow:
`cwd = os.getcwd(); os.chdir(working_dir); yield` inside `try`, and
`os.chdir(cwd)` in the `finally` block — which therefore also runs when the
initial `os.chdir(working_dir)` raises, and whose own failure supersedes any
in-flight exception (standard `try`/`finally` semantics). -/
def change_working_dir {E : Type} (working_dir : String)
    (op : OSState → OSState × Except E Unit) (s : OSState) : CwdResult E :=
  let cwd := s.cwd
  if working_dir ∈ s.dirs then
    let opRes := op { s with cwd := working_dir }
    if cwd ∈ opRes.1.dirs then
      { state := { opRes.1 with cwd := cwd },
        outcome := match opRes.2 with
          | Except.ok _ => Except.ok ()
          | Except.error e => Except.error (CwdError.opErr e),
        chdirCalls := [working_dir, cwd] }
    else
      { state := opRes.1,
        outcome := Except.error (CwdError.chdirFail cwd),
        chdirCalls := [working_dir, cwd] }
  else
    if cwd ∈ s.dirs then
      { state := { s with cwd := cwd },
        outcome := Except.error (CwdError.chdirFail working_dir),
        chdirCalls := [working_dir, cwd] }
    else
      { state := s,
        outcome := Except.error (CwdError.chdirFail cwd),
        chdirCalls := [working_dir, cwd] }

/-! ## Exceptions raised by the filesystem-facing helpers -/

/-- Python exception classes raised by the modelled functions. -/
inductive PyError where
  | valueError
  | fileExistsError
  | fileNotFoundError
  | softwareNotInstalled
deriving DecidableEq, Repr

/-! ## `get_aeromap_list_from_xpath` -/

/-- The slice of a cpacspy `CPACS` object the function touches: the string
vectors stored at xpaths (`get_string_vector` raises `ValueError` when the
xpath holds none) and the list of all aeromap uids
(`cpacs.get_aeromap_uid_list()`). -/
structure CpacsDoc where
  vectors : List (String × List String)
  aeromap_uids : List String
deriving DecidableEq, Repr

/-- Model of `get_aeromap_list_from_xpath`.  Returns the selected uid list and
the (possibly updated) document: `create_branch` + `add_string_vector` store
the full uid list at the xpath when it was absent and `empty_if_not_found` is
false. -/
def get_aeromap_list_from_xpath (cpacs : CpacsDoc) (aeromap_to_analyze_xpath : String)
    (empty_if_not_found : Bool) : List String × CpacsDoc :=
  match cpacs.vectors.lookup aeromap_to_analyze_xpath with
  | some v => (v, cpacs)
  | none =>
    if empty_if_not_found then ([], cpacs)
    else
      let aeromap_uid_list := cpacs.aeromap_uids
      (aeromap_uid_list,
       { cpacs with
          vectors := (aeromap_to_analyze_xpath, aeromap_uid_list) :: cpacs.vectors })

/-! ## Module Resolver: `get_results_directory` -/

/-- Filesystem state: which paths exist as directories and which as files. -/
structure FileSys where
  dirs : List String
  files : List String
deriving DecidableEq, Repr

/-- Model of `Path.mkdir(parents=True)` (no `exist_ok`): raises
`FileExistsError` when the path already exists, otherwise creates the
directory. -/
def mkdir_parents (fs : FileSys) (p : String) : Except PyError FileSys :=
  if p ∈ fs.dirs ∨ p ∈ fs.files then Except.error PyError.fileExistsError
  else Except.ok { fs with dirs := p :: fs.dirs }

/-- The module registry consumed by `get_results_directory`:
`get_module_list(only_active=False)` and, per module, the `RESULTS_DIR`
declared in its `__specs__`. -/
structure ModuleRegistry where
  module_list : List String
  results_dir : String → String

/-- Model of `get_results_directory`: unknown module names raise `ValueError`;
the results directory `Path(Path.cwd(), specs.RESULTS_DIR)` is created only
when it is not already a directory. -/
def get_results_directory (reg : ModuleRegistry) (cwd : String) (fs : FileSys)
    (module_name : String) : Except PyError (String × FileSys) :=
  if module_name ∈ reg.module_list then
    let results_dir := cwd ++ "/" ++ reg.results_dir module_name
    if results_dir ∈ fs.dirs then Except.ok (results_dir, fs)
    else
      match mkdir_parents fs results_dir with
      | Except.ok fs2 => Except.ok (results_dir, fs2)
      | Except.error e => Except.error e
  else Except.error PyError.valueError

/-! ## Workflow Step Runner: `run_module` -/

/-- The fields of a `ModuleToRun` object that `run_module` reads; the module
directory is the list of its entry names in iteration order. -/
structure ModuleToRun where
  name : String
  cpacs_in : String
  cpacs_out : String
  module_dir : List String
deriving DecidableEq, Repr

/-- The observable effects of one `run_module` call. -/
inductive RunAction where
  | importMod (modpath : String)
  | enterDir (wkdir : String)
  | invokeMain (modpath : String) (cpacs_in : String) (cpacs_out : String)
deriving DecidableEq, Repr

/-- The loop filter in `run_module`: files ending in `.py` and not starting
with `__`. -/
def isEntryFile (f : String) : Bool :=
  ".py".toList.isSuffixOf f.toList && !("__".toList.isPrefixOf f.toList)

/-- The `for file in module.module_dir.iterdir()` loop: the variable keeps the
last matching assignment, `none` when no file matched (unbound variable). -/
def lastMatch (p : String → Bool) (files : List String) : Option String :=
  files.foldl (fun acc f => if p f then some f else acc) none

/-- Model of `run_module(module, wkdir, iteration)` as the list of effects it
performs: `none` models the `NameError` when no entry file exists; otherwise
the import of `ceasiompy.<name>.<python_file>`, the working-directory scope
entry, and the invocation `main(module.cpacs_in, module.cpacs_out)`. -/
def run_module (module : ModuleToRun) (wkdir : String) (iteration : Nat) :
    Option (List RunAction) :=
  if module.name = "Optimisation" ∧ 0 < iteration then
    some []
  else
    match lastMatch isEntryFile module.module_dir with
    | none => none
    | some file =>
      let python_file := pathStem file
      some [RunAction.importMod ("ceasiompy." ++ module.name ++ "." ++ python_file),
            RunAction.enterDir wkdir,
            RunAction.invokeMain ("ceasiompy." ++ module.name ++ "." ++ python_file)
              module.cpacs_in module.cpacs_out]

/-! ## Tool Locator and External Tool Invoker -/

/-- Model of `get_install_path`; `which` models `shutil.which`. -/
def get_install_path (which : String → Option String) (software_name : String)
    (raise_error : Bool) : Except PyError (Option String) :=
  match which software_name with
  | some install_path => Except.ok (some install_path)
  | none =>
    if raise_error then Except.error PyError.softwareNotInstalled
    else Except.ok none

/-- Command-line assembly of `run_software` (the part of the function ahead of
the `subprocess.call`): MPI prefix when requested and resolvable, the tool
install path (possibly `None`), the arguments, and the `xvfb-run` wrapper for
sumo on linux.  Elements are `Option String` because Python appends the
unresolved install path (`None`) as-is. -/
def run_software_command (which : String → Option String) (software_name : String)
    (arguments : List String) (with_mpi : Bool) (nb_cpu : Nat) (platform : String) :
    Except PyError (List (Option String)) :=
  match get_install_path which software_name false with
  | Except.error e => Except.error e
  | Except.ok install_path =>
    match (if with_mpi then
            match get_install_path which "mpirun" false with
            | Except.error e => Except.error e
            | Except.ok (some mpi_install_path) =>
              Except.ok [some mpi_install_path, some "-np", some (toString nb_cpu)]
            | Except.ok none => Except.ok []
          else Except.ok ([] : List (Option String))) with
    | Except.error e => Except.error e
    | Except.ok mpiPart =>
      let command_line := mpiPart ++ [install_path] ++ arguments.map some
      let command_line :=
        if (software_name == "sumo" || software_name == "dwfsumo") && platform == "linux"
        then some "xvfb-run" :: command_line
        else command_line
      Except.ok command_line

/-! ## `remove_file_type_in_dir` -/

/-- A direct entry of a directory: its final name component and whether it is
a regular file. -/
structure DirEntry where
  name : String
  is_file : Bool
deriving DecidableEq, Repr

/-- Model of `remove_file_type_in_dir`: `none` models a non-existent
directory (`FileNotFoundError`); on success it returns the entries remaining
after the unlink loop. -/
def remove_file_type_in_dir (directory : Option (List DirEntry))
    (file_type_list : List String) : Except PyError (List DirEntry) :=
  match directory with
  | none => Except.error PyError.fileNotFoundError
  | some entries =>
    Except.ok (entries.filter
      (fun file => !(file.is_file && file_type_list.contains (pathSuffix file.name))))

/-! ## Helper lemmas -/

/-- The rational ceiling of `n / 4` is the rounding-up natural division. -/
lemma ceil_div_four (n : ℕ) : ⌈(n : ℚ) / 4⌉₊ = (n + 3) / 4 := by
  apply le_antisymm
  · rw [Nat.ceil_le, div_le_iff₀ (by norm_num : (0 : ℚ) < 4)]
    exact_mod_cast (show (n : ℕ) ≤ ((n + 3) / 4) * 4 by omega)
  · by_cases h : (n + 3) / 4 = 0
    · simp [h]
    · obtain ⟨m, hm⟩ : ∃ m, (n + 3) / 4 = m + 1 := ⟨(n + 3) / 4 - 1, by omega⟩
      rw [hm]
      have hmn : (m : ℚ) < (n : ℚ) / 4 := by
        rw [lt_div_iff₀ (by norm_num : (0 : ℚ) < 4)]
        exact_mod_cast (show m * 4 < n by omega)
      exact Nat.lt_ceil.mpr hmn

/-! ## Claim theorems -/

/-- C3: for a host reporting `n` CPUs, `get_reasonable_nb_cpu` returns the
ceiling of `n / 4` (equivalently the rounding-up natural division), in
particular `1` for `n = 1..4` and `2` for `n = 8`, and returns `1` when the
host CPU count cannot be determined; the function is pure and total. -/
theorem get_reasonable_nb_cpu_spec :
    get_reasonable_nb_cpu none = 1
    ∧ (∀ n : Nat, get_reasonable_nb_cpu (some n) = ⌈(n : ℚ) / 4⌉₊)
    ∧ (∀ n : Nat, get_reasonable_nb_cpu (some n) = (n + 3) / 4)
    ∧ (∀ n : Nat, 1 ≤ n → n ≤ 4 → get_reasonable_nb_cpu (some n) = 1)
    ∧ get_reasonable_nb_cpu (some 8) = 2 := by
  have hdiv : ∀ n : Nat, get_reasonable_nb_cpu (some n) = (n + 3) / 4 := by
    intro n
    show ⌈(n : ℚ) / 4⌉₊ = (n + 3) / 4
    exact ceil_div_four n
  refine ⟨rfl, fun n => rfl, hdiv, ?_, ?_⟩
  · intro n h1 h4
    rw [hdiv n]
    omega
  · rw [hdiv 8]

/-- C3 witness: a host with 4 CPUs gets the default budget 1. -/
theorem get_reasonable_nb_cpu_spec_witness : get_reasonable_nb_cpu (some 4) = 1 :=
  get_reasonable_nb_cpu_spec.2.2.2.1 4 (by decide) (by decide)

/-- C1: when the process can change into the target directory, the enclosed
operation runs with the current working directory set to the target, and on
every exit path (normal return or error from the operation) the scope puts the
process back into the starting directory `s.cwd`, issuing exactly the two
`chdir` calls `[target, s.cwd]` — i.e. the restoring change happens exactly
once. -/
theorem change_working_dir_restores {E : Type} (op : OSState → OSState × Except E Unit)
    (target : String) (s : OSState)
    (hT : target ∈ s.dirs)
    (hD : s.cwd ∈ (op { s with cwd := target }).1.dirs) :
    (change_working_dir target op s).state.cwd = s.cwd
    ∧ (change_working_dir target op s).chdirCalls = [target, s.cwd]
    ∧ (change_working_dir target op s).state =
        { (op { s with cwd := target }).1 with cwd := s.cwd }
    ∧ ((op { s with cwd := target }).2 = Except.ok () →
        (change_working_dir target op s).outcome = Except.ok ())
    ∧ (∀ e, (op { s with cwd := target }).2 = Except.error e →
        (change_working_dir target op s).outcome = Except.error (CwdError.opErr e)) := by
  unfold change_working_dir
  rw [if_pos hT, if_pos hD]
  refine ⟨rfl, rfl, rfl, ?_, ?_⟩
  · intro h
    simp only [h]
  · intro e h
    simp only [h]

/-- An enclosed operation that does nothing and returns normally. -/
def trivialOp : OSState → OSState × Except Unit Unit := fun st => (st, Except.ok ())

/-- C1 witness: concrete run from `/home` into `/tmp`. -/
theorem change_working_dir_restores_witness :
    (change_working_dir "/tmp" trivialOp ⟨"/home", ["/home", "/tmp"]⟩).state.cwd = "/home"
    ∧ (change_working_dir "/tmp" trivialOp ⟨"/home", ["/home", "/tmp"]⟩).chdirCalls
        = ["/tmp", "/home"] :=
  ⟨(change_working_dir_restores trivialOp "/tmp" ⟨"/home", ["/home", "/tmp"]⟩
      (by decide) (by decide)).1,
   (change_working_dir_restores trivialOp "/tmp" ⟨"/home", ["/home", "/tmp"]⟩
      (by decide) (by decide)).2.1⟩

/-- C2 counterexample: with starting directory `/home` and non-existent target
`/nonexistent`, the failed entry `chdir` propagates as the `EnvironmentError`,
but the `finally` block still attempts a restoring `os.chdir("/home")`: the
recorded `chdir` calls are `["/nonexistent", "/home"]`, not
`["/nonexistent"]`, so a chdir back IS attempted, contrary to the claim. -/
theorem change_working_dir_missing_target_cex :
    (change_working_dir "/nonexistent" trivialOp ⟨"/home", ["/home"]⟩).outcome
        = Except.error (CwdError.chdirFail "/nonexistent")
    ∧ (change_working_dir "/nonexistent" trivialOp ⟨"/home", ["/home"]⟩).chdirCalls
        = ["/nonexistent", "/home"]
    ∧ (change_working_dir "/nonexistent" trivialOp ⟨"/home", ["/home"]⟩).chdirCalls
        ≠ ["/nonexistent"] := by
  refine ⟨rfl, rfl, by decide⟩

/-- C2 amended: if the initial change into the target fails, the error
propagates as the `EnvironmentError` raised by `os.chdir`, but the `finally`
block nevertheless performs a (redundant) restoring `chdir` back to the saved
starting directory, leaving the process in the directory it started in. -/
theorem change_working_dir_missing_target {E : Type}
    (op : OSState → OSState × Except E Unit) (target : String) (s : OSState)
    (hT : target ∉ s.dirs) (hD : s.cwd ∈ s.dirs) :
    (change_working_dir target op s).outcome = Except.error (CwdError.chdirFail target)
    ∧ (change_working_dir target op s).chdirCalls = [target, s.cwd]
    ∧ (change_working_dir target op s).state = s := by
  unfold change_working_dir
  rw [if_neg hT, if_pos hD]
  exact ⟨rfl, rfl, rfl⟩

/-- C2 amended witness: concrete failed entry from `/home`. -/
theorem change_working_dir_missing_target_witness :
    (change_working_dir "/gone" trivialOp ⟨"/home", ["/home"]⟩).outcome
        = Except.error (CwdError.chdirFail "/gone")
    ∧ (change_working_dir "/gone" trivialOp ⟨"/home", ["/home"]⟩).chdirCalls
        = ["/gone", "/home"] :=
  ⟨(change_working_dir_missing_target trivialOp "/gone" ⟨"/home", ["/home"]⟩
      (by decide) (by decide)).1,
   (change_working_dir_missing_target trivialOp "/gone" ⟨"/home", ["/home"]⟩
      (by decide) (by decide)).2.1⟩

/-- The module-dir loop leaves the variable untouched when nothing matches. -/
lemma foldl_lastMatch_none (p : String → Bool) (files : List String) (acc : Option String)
    (h : ∀ f ∈ files, p f = false) :
    files.foldl (fun a f => if p f then some f else a) acc = acc := by
  induction files generalizing acc with
  | nil => rfl
  | cons f fs ih =>
    have hf : p f = false := h f (List.mem_cons_self f fs)
    simp only [List.foldl_cons, hf, if_neg (by simp [hf] : ¬ p f = true)]
    exact ih acc (fun g hg => h g (List.mem_cons_of_mem f hg))

/-- When some file matches, the loop ends with a matching file assigned. -/
lemma foldl_lastMatch_finds (p : String → Bool) (files : List String)
    (h : ∃ f ∈ files, p f = true) :
    ∀ acc : Option String,
      ∃ g, files.foldl (fun a f => if p f then some f else a) acc = some g ∧ p g = true := by
  induction files with
  | nil => simp at h
  | cons f fs ih =>
    intro acc
    by_cases hfs : ∃ g ∈ fs, p g = true
    · obtain ⟨g, hg⟩ := ih hfs (if p f then some f else acc)
      exact ⟨g, by simpa [List.foldl_cons] using hg⟩
    · have hpf : p f = true := by
        rcases h with ⟨x, hx, hpx⟩
        rcases List.mem_cons.mp hx with rfl | hxfs
        · exact hpx
        · exact absurd ⟨x, hxfs, hpx⟩ hfs
      have hrest : ∀ g ∈ fs, p g = false := by
        intro g hg
        rcases Bool.eq_false_or_eq_true (p g) with hb | hb
        · exact absurd ⟨g, hg, hb⟩ hfs
        · exact hb
      refine ⟨f, ?_, hpf⟩
      rw [List.foldl_cons]
      simp only [hpf, if_true]
      exact foldl_lastMatch_none p fs (some f) hrest

/-- C4: a step for the `Optimisation` module at an iteration greater than
zero is skipped entirely — no import, no working-directory entry, no
invocation, no document mutation (empty effect list); for iteration `0` or
any other module name (given the module directory holds an entry file) the
entry point is imported and invoked with the input and output CPACS paths
inside the working-directory scope. -/
theorem run_module_skip_rule (module : ModuleToRun) (wkdir : String) (iteration : Nat)
    (hfile : ∃ f ∈ module.module_dir, isEntryFile f = true) :
    (module.name = "Optimisation" → 0 < iteration →
        run_module module wkdir iteration = some [])
    ∧ (¬(module.name = "Optimisation" ∧ 0 < iteration) →
        ∃ ep, run_module module wkdir iteration =
          some [RunAction.importMod ep, RunAction.enterDir wkdir,
                RunAction.invokeMain ep module.cpacs_in module.cpacs_out]) := by
  constructor
  · intro hname hit
    unfold run_module
    rw [if_pos ⟨hname, hit⟩]
  · intro hcond
    obtain ⟨g, hg, hpg⟩ := foldl_lastMatch_finds isEntryFile module.module_dir hfile none
    refine ⟨"ceasiompy." ++ module.name ++ "." ++ pathStem g, ?_⟩
    unfold run_module
    rw [if_neg hcond]
    unfold lastMatch
    rw [hg]

/-- C4 witness: an ordinary module runs and an `Optimisation` step at
iteration 2 is skipped, on concrete fixtures. -/
theorem run_module_skip_rule_witness :
    run_module ⟨"Optimisation", "in.xml", "out.xml", ["optim.py"]⟩ "/wk" 2 = some []
    ∧ ∃ ep, run_module ⟨"PyAVL", "in.xml", "out.xml", ["__init__.py", "runavl.py"]⟩ "/wk" 2 =
        some [RunAction.importMod ep, RunAction.enterDir "/wk",
              RunAction.invokeMain ep "in.xml" "out.xml"] :=
  ⟨(run_module_skip_rule ⟨"Optimisation", "in.xml", "out.xml", ["optim.py"]⟩ "/wk" 2
      (by decide)).1 rfl (by decide),
   (run_module_skip_rule ⟨"PyAVL", "in.xml", "out.xml", ["__init__.py", "runavl.py"]⟩ "/wk" 2
      (by decide)).2 (by decide)⟩

/-- Resolving in permissive mode never raises and returns `shutil.which`. -/
lemma get_install_path_permissive (which : String → Option String) (name : String) :
    get_install_path which name false = Except.ok (which name) := by
  unfold get_install_path
  cases which name with
  | some p => rfl
  | none => rfl

/-- C5: in `run_software` with `with_mpi` set, if the `mpirun` launcher
resolves on the search path the assembled command line carries the prefix
`<launcher> -np <nb_cpu>` ahead of the tool executable (after the optional
`xvfb-run` wrapper); if the launcher does not resolve, no MPI prefix is added,
the command is exactly the one assembled without MPI, and no error is
raised — assembly returns `Except.ok` in both cases. -/
theorem run_software_mpi_rule (which : String → Option String) (software_name : String)
    (arguments : List String) (nb_cpu : Nat) (platform : String) :
    (∀ p, which "mpirun" = some p →
        run_software_command which software_name arguments true nb_cpu platform =
          Except.ok
            ((if (software_name == "sumo" || software_name == "dwfsumo") && platform == "linux"
              then [some "xvfb-run"] else []) ++
             ([some p, some "-np", some (toString nb_cpu)]
               ++ [which software_name] ++ arguments.map some)))
    ∧ (which "mpirun" = none →
        run_software_command which software_name arguments true nb_cpu platform =
          run_software_command which software_name arguments false nb_cpu platform
        ∧ run_software_command which software_name arguments true nb_cpu platform =
          Except.ok
            ((if (software_name == "sumo" || software_name == "dwfsumo") && platform == "linux"
              then [some "xvfb-run"] else []) ++
             ([which software_name] ++ arguments.map some))) := by
  constructor
  · intro p hp
    unfold run_software_command
    rw [get_install_path_permissive, get_install_path_permissive, hp]
    simp only [if_true]
    cases hx : (software_name == "sumo" || software_name == "dwfsumo") && platform == "linux" with
    | true => simp [hx]
    | false => simp [hx]
  · intro hp
    constructor
    · unfold run_software_command
      rw [get_install_path_permissive, get_install_path_permissive, hp]
      rfl
    · unfold run_software_command
      rw [get_install_path_permissive, get_install_path_permissive, hp]
      cases hx : (software_name == "sumo" || software_name == "dwfsumo") && platform == "linux" with
      | true => simp [hx]
      | false => simp [hx]

/-- A concrete search path on which `mpirun` and `su2` resolve. -/
def whichWithMpi : String → Option String := fun s =>
  if s == "mpirun" then some "/usr/bin/mpirun"
  else if s == "su2" then some "/opt/su2" else none

/-- A concrete search path on which `mpirun` does not resolve. -/
def whichNoMpi : String → Option String := fun s =>
  if s == "su2" then some "/opt/su2" else none

/-- C5 witness: concrete assemblies with and without a resolvable launcher. -/
theorem run_software_mpi_rule_witness :
    run_software_command whichWithMpi "su2" ["cfg"] true 3 "linux" =
      Except.ok [some "/usr/bin/mpirun", some "-np", some "3", some "/opt/su2", some "cfg"]
    ∧ run_software_command whichNoMpi "su2" ["cfg"] true 3 "linux" =
        run_software_command whichNoMpi "su2" ["cfg"] false 3 "linux" := by
  constructor
  · have h := (run_software_mpi_rule whichWithMpi "su2" ["cfg"] 3 "linux").1
      "/usr/bin/mpirun" (by decide)
    rw [h]
    rfl
  · exact ((run_software_mpi_rule whichNoMpi "su2" ["cfg"] 3 "linux").2 (by decide)).1

/-- C6: for a registered module name, once `get_results_directory` has
succeeded — creating the results directory only when it did not already
exist — calling it again in the same working directory succeeds, returns the
identical path, and leaves the filesystem untouched (creation is idempotent
and the second call never fails). -/
theorem get_results_directory_idempotent (reg : ModuleRegistry) (cwd : String)
    (fs : FileSys) (module_name p : String) (fs2 : FileSys)
    (h : get_results_directory reg cwd fs module_name = Except.ok (p, fs2)) :
    get_results_directory reg cwd fs2 module_name = Except.ok (p, fs2) := by
  unfold get_results_directory at h ⊢
  by_cases hm : module_name ∈ reg.module_list
  · rw [if_pos hm] at h ⊢
    by_cases hd : cwd ++ "/" ++ reg.results_dir module_name ∈ fs.dirs
    · rw [if_pos hd] at h
      obtain ⟨rfl, rfl⟩ : cwd ++ "/" ++ reg.results_dir module_name = p ∧ fs = fs2 := by
        cases h
        exact ⟨rfl, rfl⟩
      rw [if_pos hd]
    · rw [if_neg hd] at h
      unfold mkdir_parents at h
      by_cases he : cwd ++ "/" ++ reg.results_dir module_name ∈ fs.dirs
          ∨ cwd ++ "/" ++ reg.results_dir module_name ∈ fs.files
      · rw [if_pos he] at h
        cases h
      · rw [if_neg he] at h
        obtain ⟨rfl, rfl⟩ : cwd ++ "/" ++ reg.results_dir module_name = p
            ∧ ({ fs with dirs := (cwd ++ "/" ++ reg.results_dir module_name) :: fs.dirs }
                : FileSys) = fs2 := by
          cases h
          exact ⟨rfl, rfl⟩
        rw [if_pos (List.mem_cons_self _ _)]
  · rw [if_neg hm] at h
    cases h

/-- C6 witness: second call on the state produced by a successful first call. -/
theorem get_results_directory_idempotent_witness :
    get_results_directory ⟨["PyAVL"], fun _ => "Results/PyAVL"⟩ "/wk"
        ⟨["/wk/Results/PyAVL"], []⟩ "PyAVL" =
      Except.ok ("/wk/Results/PyAVL", ⟨["/wk/Results/PyAVL"], []⟩) :=
  get_results_directory_idempotent ⟨["PyAVL"], fun _ => "Results/PyAVL"⟩ "/wk"
    ⟨[], []⟩ "PyAVL" "/wk/Results/PyAVL" ⟨["/wk/Results/PyAVL"], []⟩ (by rfl)

/-- C7: `get_aeromap_list_from_xpath` returns the list stored at the xpath
when it exists (regardless of the flag, without touching the document); when
the xpath holds no list and `empty_if_not_found` is false it returns the full
aeromap uid list and stores it in the document at that xpath; when the xpath
holds no list and the flag is true it returns the empty list and leaves the
document unchanged. -/
theorem get_aeromap_list_spec (cpacs : CpacsDoc) (xpath : String) :
    (∀ v, cpacs.vectors.lookup xpath = some v →
        get_aeromap_list_from_xpath cpacs xpath false = (v, cpacs)
        ∧ get_aeromap_list_from_xpath cpacs xpath true = (v, cpacs))
    ∧ (cpacs.vectors.lookup xpath = none →
        get_aeromap_list_from_xpath cpacs xpath false =
          (cpacs.aeromap_uids,
           { cpacs with vectors := (xpath, cpacs.aeromap_uids) :: cpacs.vectors })
        ∧ get_aeromap_list_from_xpath cpacs xpath true = ([], cpacs)) := by
  constructor
  · intro v hv
    constructor <;> (unfold get_aeromap_list_from_xpath; rw [hv])
  · intro hv
    constructor <;> (unfold get_aeromap_list_from_xpath; rw [hv]) <;> rfl

/-- C7 witness: concrete document with the xpath present, and one with it
absent under both flag values. -/
theorem get_aeromap_list_spec_witness :
    get_aeromap_list_from_xpath ⟨[("/x", ["am1"])], ["am1", "am2"]⟩ "/x" false
      = (["am1"], ⟨[("/x", ["am1"])], ["am1", "am2"]⟩)
    ∧ get_aeromap_list_from_xpath ⟨[], ["am1", "am2"]⟩ "/x" false
      = (["am1", "am2"], ⟨[("/x", ["am1", "am2"])], ["am1", "am2"]⟩)
    ∧ get_aeromap_list_from_xpath ⟨[], ["am1", "am2"]⟩ "/x" true
      = ([], ⟨[], ["am1", "am2"]⟩) :=
  ⟨((get_aeromap_list_spec ⟨[("/x", ["am1"])], ["am1", "am2"]⟩ "/x").1 ["am1"] (by rfl)).1,
   ((get_aeromap_list_spec ⟨[], ["am1", "am2"]⟩ "/x").2 (by rfl)).1,
   ((get_aeromap_list_spec ⟨[], ["am1", "am2"]⟩ "/x").2 (by rfl)).2⟩

/-- C10: a non-existent directory raises `FileNotFoundError` (with nothing
deleted); for an existing directory the surviving entries are exactly the
original entries that are not regular files with a suffix in the list —
subdirectories and files with other suffixes are untouched, and every regular
file whose suffix is listed is deleted. -/
theorem remove_file_type_spec (file_type_list : List String) :
    remove_file_type_in_dir none file_type_list = Except.error PyError.fileNotFoundError
    ∧ ∀ (entries kept : List DirEntry),
        remove_file_type_in_dir (some entries) file_type_list = Except.ok kept →
        ∀ e : DirEntry,
          (e ∈ kept ↔ e ∈ entries ∧ ¬(e.is_file = true ∧ pathSuffix e.name ∈ file_type_list)) := by
  refine ⟨rfl, ?_⟩
  intro entries kept h e
  have hk : kept = entries.filter
      (fun file => !(file.is_file && file_type_list.contains (pathSuffix file.name))) := by
    unfold remove_file_type_in_dir at h
    cases h
    rfl
  subst hk
  rw [List.mem_filter]
  constructor
  · rintro ⟨hmem, hcond⟩
    refine ⟨hmem, ?_⟩
    rintro ⟨hfile, hsuf⟩
    rw [Bool.not_eq_true', Bool.and_eq_false_iff] at hcond
    rcases hcond with hc | hc
    · rw [hfile] at hc
      cases hc
    · have hcm : file_type_list.contains (pathSuffix e.name) = true :=
        List.elem_iff.mpr hsuf
      rw [hc] at hcm
      cases hcm
  · rintro ⟨hmem, hcond⟩
    refine ⟨hmem, ?_⟩
    rw [Bool.not_eq_true', Bool.and_eq_false_iff]
    by_cases hf : e.is_file = true
    · right
      have hs : ¬ (file_type_list.contains (pathSuffix e.name) = true) := by
        intro hc
        exact hcond ⟨hf, List.elem_iff.mp hc⟩
      exact (Bool.not_eq_true _) ▸ hs
    · left
      exact (Bool.not_eq_true _) ▸ hf

/-- C10 witness: in a directory holding `a.log`, `b.txt` and a subdirectory
`sub`, removing suffix `.log` deletes exactly `a.log`. -/
theorem remove_file_type_spec_witness :
    ((⟨"a.log", true⟩ : DirEntry) ∈ ([⟨"b.txt", true⟩, ⟨"sub", false⟩] : List DirEntry)
      ↔ (⟨"a.log", true⟩ : DirEntry)
            ∈ ([⟨"a.log", true⟩, ⟨"b.txt", true⟩, ⟨"sub", false⟩] : List DirEntry)
        ∧ ¬((true : Bool) = true ∧ pathSuffix "a.log" ∈ [".log"])) :=
  (remove_file_type_spec [".log"]).2
    [⟨"a.log", true⟩, ⟨"b.txt", true⟩, ⟨"sub", false⟩]
    [⟨"b.txt", true⟩, ⟨"sub", false⟩] (by rfl) ⟨"a.log", true⟩

/-- The if/elif chain is first-match lookup in the ordered pattern list. -/
lemma classify_eq_by_patterns (px : String) :
    classify_part_xpath px = classify_by_patterns px := by
  unfold classify_part_xpath classify_by_patterns part_patterns
  cases h1 : strContains px "wings/wing" <;>
  cases h2 : strContains px "fuselages/fuselage" <;>
  cases h3 : strContains px "enginePylons/enginePylon" <;>
  cases h4 : strContains px "engine/nacelle/fanCowl" <;>
  cases h5 : strContains px "engine/nacelle/centerCowl" <;>
  cases h6 : strContains px "engine/nacelle/coreCowl" <;>
  cases h7 : strContains px "vehicles/engines/engine" <;>
  cases h8 : strContains px "vehicles/rotorcraft/model/rotors/rotor" <;>
  simp [List.find?, h1, h2, h3, h4, h5, h6, h7, h8]

/-- C8: `get_part_type` classifies by substring inspection of the resolved
address against the fixed ordered pattern list: the result is always the
first ordered match (so an address containing `wings/wing` gives `wing`, and
an address containing the rotor pattern and none of the earlier patterns
gives `rotor`), and an address matching no pattern yields the unrecognized
result `none` together with the emitted warning. -/
theorem get_part_type_classification (f : String → String) (uid : String) :
    (get_part_type f uid true).1 = classify_by_patterns (f (truncate_mirrored uid))
    ∧ (strContains (f (truncate_mirrored uid)) "wings/wing" = true →
        (get_part_type f uid true).1 = some "wing")
    ∧ (strContains (f (truncate_mirrored uid)) "vehicles/rotorcraft/model/rotors/rotor" = true →
        (∀ q ∈ part_patterns.take 7, strContains (f (truncate_mirrored uid)) q.1 = false) →
        (get_part_type f uid true).1 = some "rotor")
    ∧ ((∀ q ∈ part_patterns, strContains (f (truncate_mirrored uid)) q.1 = false) →
        get_part_type f uid true = (none, true)) := by
  have hfst : ∀ pr : Bool, (get_part_type f uid pr).1
      = classify_part_xpath (f (truncate_mirrored uid)) := by
    intro pr
    simp only [get_part_type]
    cases h : classify_part_xpath (f (truncate_mirrored uid)) <;> simp [h]
  refine ⟨?_, ?_, ?_, ?_⟩
  · rw [hfst, classify_eq_by_patterns]
  · intro h1
    rw [hfst]
    simp [classify_part_xpath, h1]
  · intro h8 hpre
    have h1 : strContains (f (truncate_mirrored uid)) "wings/wing" = false :=
      hpre ("wings/wing", "wing") (by decide)
    have h2 : strContains (f (truncate_mirrored uid)) "fuselages/fuselage" = false :=
      hpre ("fuselages/fuselage", "fuselage") (by decide)
    have h3 : strContains (f (truncate_mirrored uid)) "enginePylons/enginePylon" = false :=
      hpre ("enginePylons/enginePylon", "pylon") (by decide)
    have h4 : strContains (f (truncate_mirrored uid)) "engine/nacelle/fanCowl" = false :=
      hpre ("engine/nacelle/fanCowl", "fanCowl") (by decide)
    have h5 : strContains (f (truncate_mirrored uid)) "engine/nacelle/centerCowl" = false :=
      hpre ("engine/nacelle/centerCowl", "centerCowl") (by decide)
    have h6 : strContains (f (truncate_mirrored uid)) "engine/nacelle/coreCowl" = false :=
      hpre ("engine/nacelle/coreCowl", "coreCowl") (by decide)
    have h7 : strContains (f (truncate_mirrored uid)) "vehicles/engines/engine" = false :=
      hpre ("vehicles/engines/engine", "engine") (by decide)
    rw [hfst]
    simp [classify_part_xpath, h1, h2, h3, h4, h5, h6, h7, h8]
  · intro hall
    have h1 : strContains (f (truncate_mirrored uid)) "wings/wing" = false :=
      hall ("wings/wing", "wing") (by decide)
    have h2 : strContains (f (truncate_mirrored uid)) "fuselages/fuselage" = false :=
      hall ("fuselages/fuselage", "fuselage") (by decide)
    have h3 : strContains (f (truncate_mirrored uid)) "enginePylons/enginePylon" = false :=
      hall ("enginePylons/enginePylon", "pylon") (by decide)
    have h4 : strContains (f (truncate_mirrored uid)) "engine/nacelle/fanCowl" = false :=
      hall ("engine/nacelle/fanCowl", "fanCowl") (by decide)
    have h5 : strContains (f (truncate_mirrored uid)) "engine/nacelle/centerCowl" = false :=
      hall ("engine/nacelle/centerCowl", "centerCowl") (by decide)
    have h6 : strContains (f (truncate_mirrored uid)) "engine/nacelle/coreCowl" = false :=
      hall ("engine/nacelle/coreCowl", "coreCowl") (by decide)
    have h7 : strContains (f (truncate_mirrored uid)) "vehicles/engines/engine" = false :=
      hall ("vehicles/engines/engine", "engine") (by decide)
    have h8 : strContains (f (truncate_mirrored uid))
        "vehicles/rotorcraft/model/rotors/rotor" = false :=
      hall ("vehicles/rotorcraft/model/rotors/rotor", "rotor") (by decide)
    simp [get_part_type, classify_part_xpath, h1, h2, h3, h4, h5, h6, h7, h8]

/-- A uid resolver placing every part under the wings branch. -/
def wingResolver : String → String :=
  fun u => "/cpacs/vehicles/aircraft/model/wings/wing[1]/" ++ u

/-- A uid resolver placing every part at an unclassifiable address. -/
def unknownResolver : String → String :=
  fun u => "/cpacs/header/" ++ u

/-- C8 witness: a wing address classifies as `wing`; an unmatched address
gives the unrecognized result with the warning emitted. -/
theorem get_part_type_classification_witness :
    (get_part_type wingResolver "Wing1" true).1 = some "wing"
    ∧ get_part_type unknownResolver "Strut" true = (none, true) :=
  ⟨(get_part_type_classification wingResolver "Wing1").2.1 (by decide),
   (get_part_type_classification unknownResolver "Strut").2.2.2 (by decide)⟩

/-- The marker `_mirrored` has no nontrivial border: no proper nonempty
prefix of it is also one of its suffixes. -/
lemma mirroredMark_no_border :
    ∀ k, k < mirroredMark.length → 0 < k →
      mirroredMark.drop k ≠ mirroredMark.take (mirroredMark.length - k) := by
  decide

/-- A scan cut happens immediately when the pattern heads the list. -/
lemma splitFirst_of_isPrefixOf (pat l : List Char) (hne : pat ≠ [])
    (hp : pat.isPrefixOf l = true) : splitFirst pat l = [] := by
  cases l with
  | nil =>
    cases pat with
    | nil => exact absurd rfl hne
    | cons c cs => simp [List.isPrefixOf] at hp
  | cons c cs => simp [splitFirst, hp]

/-- Borders being absent, the marker cannot start strictly inside
`l ++ mirroredMark ++ s` before the boundary when it does not head `l`. -/
lemma mirroredMark_no_overlap (l s : List Char) (hne : l ≠ [])
    (hl : mirroredMark.isPrefixOf l = false) :
    mirroredMark.isPrefixOf (l ++ (mirroredMark ++ s)) = false := by
  cases hb : mirroredMark.isPrefixOf (l ++ (mirroredMark ++ s)) with
  | false => rfl
  | true =>
    exfalso
    have hp : mirroredMark <+: l ++ (mirroredMark ++ s) :=
      ( List.isPrefixOf_iff_prefix).mp hb
    have hpe : mirroredMark = (l ++ (mirroredMark ++ s)).take mirroredMark.length :=
      ( List.prefix_iff_eq_take).mp hp
    rw [List.take_append_eq_append_take] at hpe
    by_cases hlen : mirroredMark.length ≤ l.length
    · have hz : mirroredMark.length - l.length = 0 := Nat.sub_eq_zero_of_le hlen
      rw [hz, List.take_zero, List.append_nil] at hpe
      have htp : l.take mirroredMark.length <+: l := List.take_prefix _ _
      rw [← hpe] at htp
      rw [← List.isPrefixOf_iff_prefix, hl] at htp
      cases htp
    · push_neg at hlen
      have hll : l.take mirroredMark.length = l :=
        List.take_of_length_le (le_of_lt hlen)
      rw [hll, List.take_append_eq_append_take] at hpe
      have hz2 : mirroredMark.length - l.length - mirroredMark.length = 0 := by omega
      rw [hz2, List.take_zero, List.append_nil] at hpe
      have hdrop : mirroredMark.drop l.length
          = mirroredMark.take (mirroredMark.length - l.length) := by
        conv_lhs => rw [hpe]
        exact List.drop_left l _
      exact mirroredMark_no_border l.length hlen (List.length_pos.mpr hne) hdrop

/-- Appending the marker (and anything after it) to a uid does not move the
cut made by `split("_mirrored")[0]`. -/
lemma splitFirst_append_mark (b s : List Char) :
    splitFirst mirroredMark (b ++ (mirroredMark ++ s)) = splitFirst mirroredMark b := by
  induction b with
  | nil =>
    rw [List.nil_append]
    rw [splitFirst_of_isPrefixOf mirroredMark (mirroredMark ++ s) (by decide)
      (( List.isPrefixOf_iff_prefix).mpr (List.prefix_append _ _))]
    rfl
  | cons c cs ih =>
    by_cases hp : mirroredMark.isPrefixOf (c :: cs) = true
    · rw [splitFirst_of_isPrefixOf _ _ (by decide) hp]
      have hp2 : mirroredMark.isPrefixOf ((c :: cs) ++ (mirroredMark ++ s)) = true :=
        ( List.isPrefixOf_iff_prefix).mpr
          ((( List.isPrefixOf_iff_prefix).mp hp).trans (List.prefix_append _ _))
      rw [splitFirst_of_isPrefixOf _ _ (by decide) hp2]
    · have hp' : mirroredMark.isPrefixOf (c :: cs) = false := by
        cases hb : mirroredMark.isPrefixOf (c :: cs) with
        | false => rfl
        | true => exact absurd hb hp
      have hp2 : mirroredMark.isPrefixOf ((c :: cs) ++ (mirroredMark ++ s)) = false :=
        mirroredMark_no_overlap (c :: cs) s (by simp) hp'
      rw [List.cons_append] at hp2
      show splitFirst mirroredMark (c :: (cs ++ (mirroredMark ++ s)))
          = splitFirst mirroredMark (c :: cs)
      simp only [splitFirst, hp2, hp', Bool.false_eq_true, if_false]
      rw [ih]

/-- Appending `_mirrored` plus any tail never changes the truncated uid. -/
lemma truncate_mirrored_append (base sfx : String) :
    truncate_mirrored (base ++ "_mirrored" ++ sfx) = truncate_mirrored base := by
  unfold truncate_mirrored
  have h : (base ++ "_mirrored" ++ sfx).toList
      = base.toList ++ (mirroredMark ++ sfx.toList) := by
    have h0 : (base ++ "_mirrored" ++ sfx).toList
        = (base.toList ++ mirroredMark) ++ sfx.toList := rfl
    rw [h0, List.append_assoc]
  rw [h, splitFirst_append_mark]

/-- C9: `get_part_type` cuts the uid at the first `_mirrored` before
resolving its address, so a part whose uid is a base uid followed by
`_mirrored` (plus any suffix) is classified exactly as the base part, for
every resolver, base uid, suffix and print flag. -/
theorem get_part_type_mirrored (f : String → String) (base sfx : String) (pr : Bool) :
    get_part_type f (base ++ "_mirrored" ++ sfx) pr = get_part_type f base pr := by
  unfold get_part_type
  rw [truncate_mirrored_append]
